import Mathlib

/-!
# Verification of the thumbnailer rendering/compositing engine

Shallow embedding of the core of `SkyMack/thumbnailer` (Go) in Lean 4:
the padded sequence-number labels, the batch-iteration failure policy,
the text-layer render pass sequence, the bounding-box scanner, the
configuration validation, and the final-resolution scaling step.
Definitions are translated from the Go source
(`internal/generator/png.go` and the earlier revision of the same
package); theorems check the natural-language specification against them.
-/

namespace Thumbnailer

/-! ## Padded sequence numbers (`setPaddedNumberFromNumber`) -/

/-- Little-endian decimal digits of `n`, driven by explicit fuel so the
recursion is structural.  `decDigitsAux n n` computes the digit list of the
minimal decimal representation (empty for `0`), exactly the digits emitted
by Go's `strconv.Itoa` division loop. -/
def decDigitsAux : Nat → Nat → List Nat
  | 0, _ => []
  | _ + 1, 0 => []
  | fuel + 1, n + 1 => (n + 1) % 10 :: decDigitsAux fuel ((n + 1) / 10)

/-- The character list produced by `strconv.Itoa` for a non-negative number:
most-significant digit first, and `"0"` for zero. -/
def natToDecChars (n : Nat) : List Char :=
  (if n = 0 then [0] else (decDigitsAux n n).reverse).map Nat.digitChar

/-- `strconv.Itoa`: minimal decimal representation, with a leading `'-'`
for negative numbers. -/
def itoa (n : Int) : List Char :=
  if n < 0 then '-' :: natToDecChars n.natAbs else natToDecChars n.toNat

/-- The padding loop of `setPaddedNumberFromNumber`:
`for i := 1; i <= k; i++ { s = "0" + s }` — prepends `k` zero characters. -/
def padZeros : Nat → List Char → List Char
  | 0, s => s
  | k + 1, s => padZeros k ('0' :: s)

/-- `(*thumbnail).setPaddedNumberFromNumber` (png.go lines 526-547; the same
function appears in the earlier revision).  `raw := strconv.Itoa(seqNumber)`;
`rawCharCount := strings.Count(raw, "") - 1` (the character count of `raw`);
the branch that stores the unpadded value when
`numDigits <= 1 || rawCharCount >= numDigits` is a dead store — the padded
value is recomputed and stored unconditionally right after it, and the
padding loop runs `numDigits - rawCharCount` times (zero times when that
difference is not positive). -/
def setPaddedNumberFromNumber (numDigits : Int) (seqNumber : Int) : List Char :=
  let raw := itoa seqNumber
  let rawCharCount : Int := (raw.length : Int)
  padZeros (numDigits - rawCharCount).toNat raw

/-- Number of digits in the minimal decimal representation of `n`. -/
def decimalLength (n : Nat) : Nat := if n = 0 then 1 else Nat.log 10 n + 1

/-- Accumulator pass of decimal parsing: `acc * 10 + digit` per character. -/
def parseDecAux : List Char → Nat → Nat
  | [], acc => acc
  | c :: cs, acc => parseDecAux cs (acc * 10 + (c.toNat - 48))

/-- Parse a string of decimal digit characters back to a number (what
`strconv.Atoi` does on a non-negative digit string). -/
def parseDecimal (s : List Char) : Nat := parseDecAux s 0

theorem decDigitsAux_eq_digits (fuel : Nat) :
    ∀ n : Nat, n ≤ fuel → decDigitsAux fuel n = Nat.digits 10 n := by
  induction fuel with
  | zero =>
    intro n hn
    have : n = 0 := Nat.le_zero.mp hn
    subst this
    simp [decDigitsAux]
  | succ f ih =>
    intro n hn
    match n with
    | 0 => simp [decDigitsAux]
    | m + 1 =>
      have hdiv : (m + 1) / 10 ≤ f := by
        have : (m + 1) / 10 < m + 1 := Nat.div_lt_self (Nat.succ_pos m) (by norm_num)
        omega
      rw [decDigitsAux, ih _ hdiv,
        @Nat.digits_def' 10 (by norm_num) (m + 1) (Nat.succ_pos m)]

theorem digitChar_toNat {d : Nat} (h : d < 10) : (Nat.digitChar d).toNat = 48 + d := by
  have hall : ∀ k : Fin 10, (Nat.digitChar k.val).toNat = 48 + k.val := by decide
  exact hall ⟨d, h⟩

theorem parseDecAux_map_digitChar (l : List Nat) (hl : ∀ d ∈ l, d < 10) (acc : Nat) :
    parseDecAux (l.map Nat.digitChar) acc
      = Nat.ofDigits (10 : Nat) l.reverse + acc * 10 ^ l.length := by
  revert hl
  induction l generalizing acc with
  | nil =>
    intro _
    rw [List.map_nil, List.reverse_nil, List.length_nil, Nat.ofDigits_nil]
    show acc = 0 + acc * 10 ^ 0
    ring
  | cons d l ih =>
    intro hl
    have hd : d < 10 := hl d (List.mem_cons_self d l)
    have hl' : ∀ x ∈ l, x < 10 := fun x hx => hl x (List.mem_cons_of_mem d hx)
    have hchar : (Nat.digitChar d).toNat - 48 = d := by
      rw [digitChar_toNat hd]; omega
    rw [List.map_cons, parseDecAux, hchar, ih _ hl']
    have : Nat.ofDigits 10 ((d :: l).reverse)
        = Nat.ofDigits 10 l.reverse + 10 ^ l.length * d := by
      rw [List.reverse_cons, Nat.ofDigits_append]
      simp [Nat.ofDigits_singleton, List.length_reverse]
    rw [this, List.length_cons]
    ring

theorem parseDecimal_natToDecChars (n : Nat) : parseDecimal (natToDecChars n) = n := by
  by_cases h : n = 0
  · subst h; decide
  · unfold natToDecChars parseDecimal
    rw [if_neg h, decDigitsAux_eq_digits n n (Nat.le_refl n)]
    have hlt : ∀ d ∈ (Nat.digits 10 n).reverse, d < 10 := by
      intro d hd
      exact Nat.digits_lt_base (by norm_num) (List.mem_reverse.mp hd)
    rw [parseDecAux_map_digitChar _ hlt 0]
    simp [Nat.ofDigits_digits]

theorem natToDecChars_length (n : Nat) : (natToDecChars n).length = decimalLength n := by
  by_cases h : n = 0
  · subst h; decide
  · unfold natToDecChars decimalLength
    rw [if_neg h, if_neg h, decDigitsAux_eq_digits n n (Nat.le_refl n)]
    simp [Nat.digits_len 10 n (by norm_num) h]

theorem padZeros_length : ∀ (k : Nat) (s : List Char), (padZeros k s).length = k + s.length := by
  intro k
  induction k with
  | zero => intro s; simp [padZeros]
  | succ m ih =>
    intro s
    rw [padZeros, ih]
    simp
    omega

theorem parseDecAux_padZeros : ∀ (k : Nat) (s : List Char),
    parseDecAux (padZeros k s) 0 = parseDecAux s 0 := by
  intro k
  induction k with
  | zero => intro s; rfl
  | succ m ih =>
    intro s
    rw [padZeros, ih ('0' :: s), parseDecAux]
    have h48 : (0 * 10 + ('0'.toNat - 48)) = 0 := by decide
    rw [h48]

/-- **C1.** For every configured digit width `d ≥ 0` and every sequence
number `n ≥ 0` (all sequence numbers in a validated range are
non-negative), the padded label produced by `setPaddedNumberFromNumber`
has length exactly `max d (decimalLength n)`, parsing it back as an
integer yields `n`, and its digit count is never below the natural decimal
digit count of `n` (padding only adds characters, never truncates). -/
theorem c1_padded_label (numDigits seqNumber : Int)
    (hd : 0 ≤ numDigits) (hn : 0 ≤ seqNumber) :
    (setPaddedNumberFromNumber numDigits seqNumber).length
        = max numDigits.toNat (decimalLength seqNumber.toNat)
      ∧ (parseDecimal (setPaddedNumberFromNumber numDigits seqNumber) : Int) = seqNumber
      ∧ decimalLength seqNumber.toNat ≤ (setPaddedNumberFromNumber numDigits seqNumber).length := by
  have hraw : itoa seqNumber = natToDecChars seqNumber.toNat := by
    unfold itoa
    rw [if_neg (by omega)]
  have hlenraw : (itoa seqNumber).length = decimalLength seqNumber.toNat := by
    rw [hraw, natToDecChars_length]
  have hlen : (setPaddedNumberFromNumber numDigits seqNumber).length
      = (numDigits - (decimalLength seqNumber.toNat : Int)).toNat
        + decimalLength seqNumber.toNat := by
    unfold setPaddedNumberFromNumber
    rw [padZeros_length, hlenraw]
  refine ⟨?_, ?_, ?_⟩
  · rw [hlen]; omega
  · have : parseDecimal (setPaddedNumberFromNumber numDigits seqNumber)
        = seqNumber.toNat := by
      unfold setPaddedNumberFromNumber parseDecimal
      rw [parseDecAux_padZeros, hraw]
      exact parseDecimal_natToDecChars seqNumber.toNat
    rw [this, Int.toNat_of_nonneg hn]
  · rw [hlen]; omega

/-- **C1 witness.** The hypotheses of `c1_padded_label` hold at the
concrete input `d = 3`, `n = 7`. -/
theorem c1_padded_label_witness :
    (0 : Int) ≤ 3 ∧ (0 : Int) ≤ 7
      ∧ ((setPaddedNumberFromNumber 3 7).length
            = max (3 : Int).toNat (decimalLength (7 : Int).toNat)
        ∧ (parseDecimal (setPaddedNumberFromNumber 3 7) : Int) = 7
        ∧ decimalLength (7 : Int).toNat ≤ (setPaddedNumberFromNumber 3 7).length) :=
  ⟨by decide, by decide, c1_padded_label 3 7 (by decide) (by decide)⟩

/-! ## Batch runner (`generateStaticThumbnails`, `generateDynamicThumbnails`)

The per-frame stages (image load, render, export) are abstracted as
oracles `Int → Option ε` giving the non-nil error (if any) that the stage
produces at a given sequence number; the loop control flow is translated
as it stands in the source. -/

/-- Outcome of a batch run, instrumented with the sequence numbers whose
loop body was entered (`attempted`) and those whose export succeeded
(`exported`).  `outcome = some e` models a non-nil Go error return. -/
structure RunResult (ε : Type) where
  attempted : List Int
  exported : List Int
  outcome : Option ε
  deriving DecidableEq

/-- The consecutive sequence numbers `i, i+1, …` of length `fuel`: the
iteration domain of `for i := numStart; i <= numEnd; i++` when
`fuel = (numEnd + 1 - numStart).toNat`. -/
def seqRange : Int → Nat → List Int
  | _, 0 => []
  | i, fuel + 1 => i :: seqRange (i + 1) fuel

/-- Loop of `generateStaticThumbnails` (png.go lines 424-435): render,
then export; a non-nil error from either stage is returned immediately,
aborting the remaining iterations. -/
def generateStaticLoop {ε : Type} (render exportThumb : Int → Option ε) :
    Int → Nat → RunResult ε
  | _, 0 => ⟨[], [], none⟩
  | i, fuel + 1 =>
    match render i with
    | some e => ⟨[i], [], some e⟩
    | none =>
      match exportThumb i with
      | some e => ⟨[i], [], some e⟩
      | none =>
        let rest := generateStaticLoop render exportThumb (i + 1) fuel
        ⟨i :: rest.attempted, i :: rest.exported, rest.outcome⟩

/-- `generateStaticThumbnails` (png.go lines 422-438). -/
def generateStaticThumbnails {ε : Type} (numStart numEnd : Int)
    (render exportThumb : Int → Option ε) : RunResult ε :=
  generateStaticLoop render exportThumb numStart (numEnd + 1 - numStart).toNat

/-- Loop of `generateDynamicThumbnails` (png.go lines 459-495): load this
frame's still image, render, export; a non-nil error at any of the three
stages is logged and `continue`s to the next sequence number. -/
def generateDynamicLoop {ε : Type} (load render exportThumb : Int → Option ε) :
    Int → Nat → RunResult ε
  | _, 0 => ⟨[], [], none⟩
  | i, fuel + 1 =>
    let rest := generateDynamicLoop load render exportThumb (i + 1) fuel
    match load i with
    | some _ => ⟨i :: rest.attempted, rest.exported, rest.outcome⟩
    | none =>
      match render i with
      | some _ => ⟨i :: rest.attempted, rest.exported, rest.outcome⟩
      | none =>
        match exportThumb i with
        | some _ => ⟨i :: rest.attempted, rest.exported, rest.outcome⟩
        | none => ⟨i :: rest.attempted, i :: rest.exported, rest.outcome⟩

/-- `generateDynamicThumbnails` (png.go lines 440-498): when a title
overlay path is configured (non-empty), the title image is loaded once
before the loop and a non-nil load error is returned immediately, aborting
the whole run before any frame; otherwise the per-frame loop runs.
`loadTitle` is the error (if any) that loading the title overlay image
produces. -/
def generateDynamicThumbnails {ε : Type} (numStart numEnd : Int)
    (titleImageFilePath : String) (loadTitle : Option ε)
    (load render exportThumb : Int → Option ε) : RunResult ε :=
  if titleImageFilePath ≠ "" then
    match loadTitle with
    | some e => ⟨[], [], some e⟩
    | none => generateDynamicLoop load render exportThumb numStart (numEnd + 1 - numStart).toNat
  else
    generateDynamicLoop load render exportThumb numStart (numEnd + 1 - numStart).toNat

theorem generateStaticLoop_abort {ε : Type} (render exportThumb : Int → Option ε) (e : ε) :
    ∀ (fuel : Nat) (i k : Int), i ≤ k → k < i + fuel →
      (∀ j, i ≤ j → j < k → render j = none ∧ exportThumb j = none) →
      (render k = some e ∨ (render k = none ∧ exportThumb k = some e)) →
      generateStaticLoop render exportThumb i fuel
        = ⟨seqRange i (k + 1 - i).toNat, seqRange i (k - i).toNat, some e⟩ := by
  intro fuel
  induction fuel with
  | zero => intro i k h1 h2 _ _; exact absurd h2 (by omega)
  | succ f ih =>
    intro i k h1 h2 hok hfail
    by_cases hik : i = k
    · subst hik
      have ht1 : (i + 1 - i).toNat = 1 := by omega
      have ht0 : (i - i).toNat = 0 := by omega
      rcases hfail with hr | ⟨hr, hx⟩
      · simp [generateStaticLoop, hr, ht1, ht0, seqRange]
      · simp [generateStaticLoop, hr, hx, ht1, ht0, seqRange]
    · obtain ⟨hr, hx⟩ := hok i (le_refl i) (by omega)
      have hrec := ih (i + 1) k (by omega) (by omega)
        (fun j hj1 hj2 => hok j (by omega) hj2) hfail
      have hs1 : (k + 1 - i).toNat = (k + 1 - (i + 1)).toNat + 1 := by omega
      have hs0 : (k - i).toNat = (k - (i + 1)).toNat + 1 := by omega
      simp [generateStaticLoop, hr, hx, hrec, hs1, hs0, seqRange]

theorem generateDynamicLoop_eq {ε : Type} (load render exportThumb : Int → Option ε) :
    ∀ (fuel : Nat) (i : Int),
      generateDynamicLoop load render exportThumb i fuel
        = ⟨seqRange i fuel,
           (seqRange i fuel).filter
             (fun j => (load j).isNone && (render j).isNone && (exportThumb j).isNone),
           none⟩ := by
  intro fuel
  induction fuel with
  | zero => intro i; rfl
  | succ f ih =>
    intro i
    have hrec := ih (i + 1)
    cases hl : load i with
    | some e1 => simp [generateDynamicLoop, hl, hrec, seqRange, List.filter]
    | none =>
      cases hr : render i with
      | some e2 => simp [generateDynamicLoop, hl, hr, hrec, seqRange, List.filter]
      | none =>
        cases hx : exportThumb i with
        | some e3 => simp [generateDynamicLoop, hl, hr, hx, hrec, seqRange, List.filter]
        | none => simp [generateDynamicLoop, hl, hr, hx, hrec, seqRange, List.filter]

/-- **C2.** Per-mode failure policy of the batch runner.  Static mode: the
first per-frame error (render or export) at sequence number `k` aborts the
run — the error is surfaced to the caller, frames `numStart..k` are the
only ones attempted, and only `numStart..k-1` were exported.  Dynamic
mode: the run always reports success (`outcome = none`), every sequence
number in the range is attempted, and exactly the frames whose load,
render and export all succeed are exported.  Concretely, for a 5-frame
range whose frame 3 fails to load, exactly frames 1, 2, 4, 5 are
exported. -/
theorem c2_failure_policy :
    (∀ (render exportThumb : Int → Option String) (numStart numEnd k : Int) (e : String),
        numStart ≤ k → k ≤ numEnd →
        (∀ j, numStart ≤ j → j < k → render j = none ∧ exportThumb j = none) →
        (render k = some e ∨ (render k = none ∧ exportThumb k = some e)) →
        generateStaticThumbnails numStart numEnd render exportThumb
          = ⟨seqRange numStart (k + 1 - numStart).toNat,
             seqRange numStart (k - numStart).toNat, some e⟩)
  ∧ (∀ (load render exportThumb : Int → Option String) (numStart numEnd : Int),
        generateDynamicThumbnails numStart numEnd "" none load render exportThumb
          = ⟨seqRange numStart (numEnd + 1 - numStart).toNat,
             (seqRange numStart (numEnd + 1 - numStart).toNat).filter
               (fun j => (load j).isNone && (render j).isNone && (exportThumb j).isNone),
             none⟩)
  ∧ generateDynamicThumbnails 1 5 "" none
      (fun j => if j = 3 then some "cannot open dynamic thumbnail image" else none)
      (fun _ => none) (fun _ => none)
      = ⟨[1, 2, 3, 4, 5], [1, 2, 4, 5], none⟩ := by
  refine ⟨?_, ?_, ?_⟩
  · intro render exportThumb numStart numEnd k e h1 h2 hok hfail
    exact generateStaticLoop_abort render exportThumb e _ numStart k h1 (by omega) hok hfail
  · intro load render exportThumb numStart numEnd
    simp [generateDynamicThumbnails, generateDynamicLoop_eq]
  · decide

/-- **C2 witness.** The hypotheses of the static-mode part of
`c2_failure_policy` hold at a concrete run over `1..4` whose render fails
at frame 2: frames 1 and 2 are attempted, frame 1 alone is exported, and
the error is surfaced. -/
theorem c2_failure_policy_witness :
    ((1 : Int) ≤ 2 ∧ (2 : Int) ≤ 4)
      ∧ generateStaticThumbnails 1 4
          (fun j => if j = 2 then some "render failed" else none)
          (fun _ => (none : Option String))
          = ⟨[1, 2], [1], some "render failed"⟩ := by
  refine ⟨⟨by decide, by decide⟩, ?_⟩
  have hok : ∀ j : Int, 1 ≤ j → j < 2 →
      (fun j : Int => if j = 2 then some "render failed" else none) j = (none : Option String)
        ∧ (fun _ : Int => (none : Option String)) j = none := by
    intro j hj1 hj2
    have hj : j = 1 := by omega
    simp [hj]
  have h := c2_failure_policy.1
      (fun j => if j = 2 then some "render failed" else none)
      (fun _ => (none : Option String)) 1 4 2 "render failed"
      (by decide) (by decide) hok (Or.inl (by decide))
  rw [h]
  decide

/-! ## Configuration validation (`validate` / `checkConfig`) -/

/-- `(*Config).validate` (png.go lines 373-387; `checkConfig` in the
earlier revision, lines 248-261, performs the same three checks): each
failed check appends one error to a multierror.  The configuration passes
validation iff the returned error list is empty (a nil multierror). -/
def validate (numStart numEnd numDigits : Int) : List String :=
  (if numStart < 0 ∨ numEnd ≤ 0 then
    ["invalid sequence: start must be a positive seqNumber"] else [])
  ++ (if numStart ≥ numEnd then
    ["invalid sequence: start seqNumber is the same as or after the end seqNumber"] else [])
  ++ (if numDigits < 0 then
    ["invalid numFixedPlaces: must be a positive seqNumber"] else [])

/-- Outcome of the `png static` command body (png.go lines 181-203):
validate, then import the background, then parse the font, then generate;
a non-nil error at any step returns immediately. -/
inductive StaticRunOutcome (ε : Type) where
  | configError (msgs : List String)
  | loadError (e : ε)
  | completed (result : RunResult ε)
  deriving DecidableEq

/-- The `png static` command body (png.go lines 181-203), with the
background import and font parse abstracted as error oracles. -/
def runPngStatic {ε : Type} (numStart numEnd numDigits : Int)
    (importBackgroundErr parseFontFileErr : Option ε)
    (render exportThumb : Int → Option ε) : StaticRunOutcome ε :=
  match validate numStart numEnd numDigits with
  | m :: ms => .configError (m :: ms)
  | [] =>
    match importBackgroundErr with
    | some e => .loadError e
    | none =>
      match parseFontFileErr with
      | some e => .loadError e
      | none => .completed (generateStaticThumbnails numStart numEnd render exportThumb)

/-- **C6 counterexample.** A configuration with `start = end` satisfies
every condition of the claim (`start ≥ 0`, `end > 0`, `start ≤ end`,
`digits ≥ 0`) yet is rejected by `validate`: the `numStart >= numEnd`
check fires. -/
theorem c6_counterexample :
    ((0 : Int) ≤ 5 ∧ (0 : Int) < 5 ∧ (5 : Int) ≤ 5 ∧ (0 : Int) ≤ 2)
      ∧ validate 5 5 2
          = ["invalid sequence: start seqNumber is the same as or after the end seqNumber"]
      ∧ validate 5 5 2 ≠ [] := by
  refine ⟨by decide, by decide, by decide⟩

/-- **C6 (amended).** Configuration validation accepts a configuration iff
sequence start ≥ 0, end > 0, start is strictly before end, and the digit
width is non-negative — a configuration with start equal to end is
rejected — and an invalid configuration makes the run fail with the
validation errors before any frame is attempted. -/
theorem c6_validate_iff :
    (∀ numStart numEnd numDigits : Int,
        validate numStart numEnd numDigits = []
          ↔ (0 ≤ numStart ∧ 0 < numEnd ∧ numStart < numEnd ∧ 0 ≤ numDigits))
  ∧ (∀ (ε : Type) (numStart numEnd numDigits : Int)
        (importBackgroundErr parseFontFileErr : Option ε)
        (render exportThumb : Int → Option ε),
        validate numStart numEnd numDigits ≠ [] →
        runPngStatic numStart numEnd numDigits importBackgroundErr parseFontFileErr
            render exportThumb
          = .configError (validate numStart numEnd numDigits)) := by
  constructor
  · intro numStart numEnd numDigits
    unfold validate
    split_ifs with h1 h2 h3 <;> simp_all <;> omega
  · intro ε numStart numEnd numDigits imp fnt render exportThumb hne
    cases hv : validate numStart numEnd numDigits with
    | nil => exact absurd hv hne
    | cons m ms => simp [runPngStatic, hv]

/-- **C6 witness.** The hypothesis of the second part of `c6_validate_iff`
holds at the concrete invalid configuration `start=3, end=2, digits=0`:
the run fails with the validation errors before any frame is attempted. -/
theorem c6_validate_iff_witness :
    validate 3 2 0 ≠ []
      ∧ runPngStatic 3 2 0 (none : Option String) none (fun _ => none) (fun _ => none)
          = .configError (validate 3 2 0) :=
  ⟨by decide,
   c6_validate_iff.2 String 3 2 0 none none (fun _ => none) (fun _ => none) (by decide)⟩

/-- **C7 counterexample.** In dynamic mode with a configured title overlay
whose load fails, the run aborts before any frame: no sequence number in
the 5-frame range is attempted, contradicting the claim that the batch
still attempts every sequence number. -/
theorem c7_counterexample :
    (generateDynamicThumbnails 1 5 "title.png" (some "cannot open title image")
        (fun _ => none) (fun _ => none) (fun _ => (none : Option String))).attempted = []
      ∧ (generateDynamicThumbnails 1 5 "title.png" (some "cannot open title image")
          (fun _ => none) (fun _ => none) (fun _ => (none : Option String))).attempted
        ≠ [1, 2, 3, 4, 5]
      ∧ (generateDynamicThumbnails 1 5 "title.png" (some "cannot open title image")
          (fun _ => none) (fun _ => none) (fun _ => (none : Option String))).outcome
        = some "cannot open title image" := by
  refine ⟨by decide, by decide, by decide⟩

/-- **C7 (amended).** In dynamic mode, a failure to load the configured
title overlay image is returned immediately and aborts the run before any
frame is attempted; only per-frame background-load, render and export
failures are handled with the per-frame-skip policy. -/
theorem c7_title_overlay_load_aborts (ε : Type) (numStart numEnd : Int)
    (titleImageFilePath : String) (e : ε) (load render exportThumb : Int → Option ε)
    (hpath : titleImageFilePath ≠ "") :
    generateDynamicThumbnails numStart numEnd titleImageFilePath (some e)
        load render exportThumb
      = ⟨[], [], some e⟩ := by
  unfold generateDynamicThumbnails
  rw [if_pos hpath]

/-- **C7 witness.** The hypothesis of `c7_title_overlay_load_aborts` holds
at the concrete path `"title.png"`. -/
theorem c7_title_overlay_load_aborts_witness :
    ("title.png" : String) ≠ ""
      ∧ generateDynamicThumbnails 2 6 "title.png" (some "no such file")
          (fun _ => none) (fun _ => none) (fun _ => (none : Option String))
        = ⟨[], [], some "no such file"⟩ :=
  ⟨by decide,
   c7_title_overlay_load_aborts String 2 6 "title.png" "no such file"
     (fun _ => none) (fun _ => none) (fun _ => none) (by decide)⟩

/-! ## Bounding-box scanner (`calcMinRect`) -/

/-- An RGBA raster reduced to what the scanner inspects: its pixel
dimensions and the alpha channel of each in-bounds pixel.  Bounds start at
the origin, as for every raster the generator allocates
(`image.NewNRGBA(image.Rect(0, 0, w, h))`). -/
structure Raster where
  width : Nat
  height : Nat
  alphaAt : Nat → Nat → Nat

/-- The alpha value the raster yields at integer coordinates: Go's
`image.NRGBA.At` returns the zero color (alpha `0`) for any point outside
the raster's bounds. -/
def pixelAlpha (img : Raster) (x y : Int) : Nat :=
  if 0 ≤ x ∧ x < (img.width : Int) ∧ 0 ≤ y ∧ y < (img.height : Int) then
    img.alphaAt x.toNat y.toNat
  else 0

/-- Modelled from the spec: `borders.IsEmptyPixel` lives in the external
`image-add-borders` dependency, whose source is not part of this
repository; per the spec's glossary a pixel is occupied iff its alpha
channel exceeds the alpha threshold, and empty otherwise. -/
def isEmptyPixel (img : Raster) (thresh : Nat) (x y : Int) : Bool :=
  decide (pixelAlpha img x y ≤ thresh)

/-- The integers `0, 1, …, n-1`: the coordinates visited by an ascending
Go loop `for v := 0; v <= limit; v++` when `n = limit + 1`. -/
def ascInts (n : Nat) : List Int := (List.range n).map Int.ofNat

/-- Inner loop of the first sweep of `calcMinRect`: does row `y` contain a
non-empty pixel at some `x` in `0..imgWidth` (inclusive)?  The Go loop
breaks at the first hit, which is observationally `List.any`. -/
def rowHasValue (img : Raster) (thresh : Nat) (y : Int) : Bool :=
  (ascInts (img.width + 1)).any (fun x => ! isEmptyPixel img thresh x y)

/-- Inner loop of the second sweep: same as `rowHasValue` but scanning
`x` from `imgWidth` down to `0`. -/
def rowHasValueDesc (img : Raster) (thresh : Nat) (y : Int) : Bool :=
  ((ascInts (img.width + 1)).reverse).any (fun x => ! isEmptyPixel img thresh x y)

/-- Inner loop of the third sweep: does column `x` contain a non-empty
pixel at some `y` in `0..imgHeight` (inclusive)? -/
def colHasValue (img : Raster) (thresh : Nat) (x : Int) : Bool :=
  (ascInts (img.height + 1)).any (fun y => ! isEmptyPixel img thresh x y)

/-- Inner loop of the fourth sweep: same as `colHasValue` but scanning
`y` from `imgHeight` down to `0`. -/
def colHasValueDesc (img : Raster) (thresh : Nat) (x : Int) : Bool :=
  ((ascInts (img.height + 1)).reverse).any (fun y => ! isEmptyPixel img thresh x y)

/-- First sweep of `calcMinRect` (part_001 lines 432-444): `minY` is the
first `y` in `0..imgHeight` whose row has a non-empty pixel, and stays at
its zero initialization when no row does. -/
def calcMinY (img : Raster) (thresh : Nat) : Int :=
  ((ascInts (img.height + 1)).find? (rowHasValue img thresh)).getD 0

/-- Second sweep (part_001 lines 445-457): `maxY` from `imgHeight` down. -/
def calcMaxY (img : Raster) (thresh : Nat) : Int :=
  (((ascInts (img.height + 1)).reverse).find? (rowHasValueDesc img thresh)).getD 0

/-- Third sweep (part_001 lines 459-471): `minX` over columns. -/
def calcMinX (img : Raster) (thresh : Nat) : Int :=
  ((ascInts (img.width + 1)).find? (colHasValue img thresh)).getD 0

/-- Fourth sweep (part_001 lines 472-484): `maxX` from `imgWidth` down. -/
def calcMaxX (img : Raster) (thresh : Nat) : Int :=
  (((ascInts (img.width + 1)).reverse).find? (colHasValueDesc img thresh)).getD 0

/-- A Go `image.Rectangle` given by its min and max corners. -/
structure GoRect where
  minX : Int
  minY : Int
  maxX : Int
  maxY : Int
  deriving DecidableEq

/-- `image.Rect(x0, y0, x1, y1)`: swaps the coordinates of each axis when
given in decreasing order, so the result is well-formed. -/
def imageRect (x0 y0 x1 y1 : Int) : GoRect :=
  let xs := if x0 > x1 then (x1, x0) else (x0, x1)
  let ys := if y0 > y1 then (y1, y0) else (y0, y1)
  ⟨xs.1, ys.1, xs.2, ys.2⟩

/-- `Rectangle.Dx`. -/
def rectDx (r : GoRect) : Int := r.maxX - r.minX

/-- `Rectangle.Dy`. -/
def rectDy (r : GoRect) : Int := r.maxY - r.minY

/-- Pixel area of a rectangle. -/
def rectArea (r : GoRect) : Int := rectDx r * rectDy r

/-- `calcMinRect` (part_001 lines 425-496): four sweeps, then a 1-pixel
margin around the detected extrema: `image.Rect(minX-1, minY-1, maxX+1,
maxY+1)`.  The extrema stay `0` when no sweep finds a non-empty pixel. -/
def calcMinRect (img : Raster) (thresh : Nat) : GoRect :=
  imageRect (calcMinX img thresh - 1) (calcMinY img thresh - 1)
    (calcMaxX img thresh + 1) (calcMaxY img thresh + 1)

theorem mem_ascInts {n : Nat} {x : Int} : x ∈ ascInts n ↔ 0 ≤ x ∧ x < (n : Int) := by
  simp only [ascInts, List.mem_map, List.mem_range, Int.ofNat_eq_coe]
  constructor
  · rintro ⟨k, hk, rfl⟩; omega
  · rintro ⟨h0, hn⟩; exact ⟨x.toNat, by omega, by omega⟩

theorem occupied_in_bounds {img : Raster} {thresh : Nat} {x y : Int}
    (h : isEmptyPixel img thresh x y = false) :
    0 ≤ x ∧ x < (img.width : Int) ∧ 0 ≤ y ∧ y < (img.height : Int) := by
  by_cases hb : 0 ≤ x ∧ x < (img.width : Int) ∧ 0 ≤ y ∧ y < (img.height : Int)
  · exact hb
  · exfalso
    apply of_decide_eq_false h
    unfold pixelAlpha
    rw [if_neg hb]
    exact Nat.zero_le thresh

theorem find_getD_prop (l : List Int) (p : Int → Bool) (Q : Int → Prop)
    (hex : ∃ v ∈ l, p v = true) (hQ : ∀ v, p v = true → Q v) :
    Q ((l.find? p).getD 0) := by
  obtain ⟨v, hv, hp⟩ := hex
  have hsome : (l.find? p).isSome := List.find?_isSome.mpr ⟨v, hv, hp⟩
  obtain ⟨v0, h0⟩ := Option.isSome_iff_exists.mp hsome
  rw [h0]
  exact hQ v0 (List.find?_some h0)

/-- **C4 counterexample.** On a concrete all-empty 2×2 raster the scan does
not return a zero-area rectangle: all four extrema stay at their zero
initialization, the 1-pixel margin is still applied, and the result is the
fixed rectangle `(-1,-1)-(1,1)` of area 4. -/
theorem c4_counterexample :
    calcMinRect ⟨2, 2, fun _ _ => 0⟩ 0 = ⟨-1, -1, 1, 1⟩
      ∧ rectArea (calcMinRect ⟨2, 2, fun _ _ => 0⟩ 0) = 4
      ∧ rectArea (calcMinRect ⟨2, 2, fun _ _ => 0⟩ 0) ≠ 0 := by
  refine ⟨by decide, by decide, by decide⟩

/-- **C4 (amended).** For every raster in which every pixel is classified
empty (no alpha exceeds the threshold), the bounding-box scan returns the
fixed rectangle `(-1,-1)-(1,1)` — a 2×2 region of area 4 around the
zero-initialized extrema, locating no occupied pixel — rather than a
zero-area rectangle; callers may not assume the rectangle reflects any
occupied content. -/
theorem c4_empty_raster_rect (img : Raster) (thresh : Nat)
    (hempty : ∀ x y : Int, isEmptyPixel img thresh x y = true) :
    calcMinRect img thresh = ⟨-1, -1, 1, 1⟩
      ∧ rectArea (calcMinRect img thresh) = 4 := by
  have hrow : ∀ y : Int, rowHasValue img thresh y = false := by
    intro y
    apply List.any_eq_false.mpr
    intro x _
    simp [hempty x y]
  have hrowD : ∀ y : Int, rowHasValueDesc img thresh y = false := by
    intro y
    apply List.any_eq_false.mpr
    intro x _
    simp [hempty x y]
  have hcol : ∀ x : Int, colHasValue img thresh x = false := by
    intro x
    apply List.any_eq_false.mpr
    intro y _
    simp [hempty x y]
  have hcolD : ∀ x : Int, colHasValueDesc img thresh x = false := by
    intro x
    apply List.any_eq_false.mpr
    intro y _
    simp [hempty x y]
  have h1 : calcMinY img thresh = 0 := by
    unfold calcMinY
    rw [List.find?_eq_none.mpr (fun v _ => by simp [hrow v])]
    rfl
  have h2 : calcMaxY img thresh = 0 := by
    unfold calcMaxY
    rw [List.find?_eq_none.mpr (fun v _ => by simp [hrowD v])]
    rfl
  have h3 : calcMinX img thresh = 0 := by
    unfold calcMinX
    rw [List.find?_eq_none.mpr (fun v _ => by simp [hcol v])]
    rfl
  have h4 : calcMaxX img thresh = 0 := by
    unfold calcMaxX
    rw [List.find?_eq_none.mpr (fun v _ => by simp [hcolD v])]
    rfl
  have hrect : calcMinRect img thresh = ⟨-1, -1, 1, 1⟩ := by
    unfold calcMinRect
    rw [h1, h2, h3, h4]
    decide
  exact ⟨hrect, by rw [hrect]; decide⟩

/-- **C4 witness.** The hypothesis of `c4_empty_raster_rect` holds at a
concrete fully transparent 3×2 raster with threshold 7. -/
theorem c4_empty_raster_rect_witness :
    (∀ x y : Int, isEmptyPixel ⟨3, 2, fun _ _ => 0⟩ 7 x y = true)
      ∧ calcMinRect ⟨3, 2, fun _ _ => 0⟩ 7 = ⟨-1, -1, 1, 1⟩ := by
  have hempty : ∀ x y : Int, isEmptyPixel ⟨3, 2, fun _ _ => 0⟩ 7 x y = true := by
    intro x y
    unfold isEmptyPixel pixelAlpha
    split <;> rfl
  exact ⟨hempty, (c4_empty_raster_rect ⟨3, 2, fun _ _ => 0⟩ 7 hempty).1⟩

/-- **C9.** The four sweeps of `calcMinRect` visit coordinates up to and
including `x = imgWidth` and `y = imgHeight` (one past the last valid
index), yet an out-of-range lookup always classifies as empty; hence
whenever the raster contains at least one occupied pixel, every pre-margin
extremum (`minX`, `minY`, `maxX`, `maxY`) lies within
`[0, width-1] × [0, height-1]`. -/
theorem c9_scan_bounds :
    (∀ img : Raster, (img.width : Int) ∈ ascInts (img.width + 1)
        ∧ (img.height : Int) ∈ ascInts (img.height + 1))
  ∧ (∀ (img : Raster) (thresh : Nat) (x y : Int),
        ((img.width : Int) ≤ x ∨ (img.height : Int) ≤ y ∨ x < 0 ∨ y < 0) →
        isEmptyPixel img thresh x y = true)
  ∧ (∀ (img : Raster) (thresh : Nat),
        (∃ x y : Int, isEmptyPixel img thresh x y = false) →
        (0 ≤ calcMinX img thresh ∧ calcMinX img thresh < (img.width : Int))
          ∧ (0 ≤ calcMinY img thresh ∧ calcMinY img thresh < (img.height : Int))
          ∧ (0 ≤ calcMaxX img thresh ∧ calcMaxX img thresh < (img.width : Int))
          ∧ (0 ≤ calcMaxY img thresh ∧ calcMaxY img thresh < (img.height : Int))) := by
  refine ⟨?_, ?_, ?_⟩
  · intro img
    exact ⟨mem_ascInts.mpr ⟨by omega, by omega⟩, mem_ascInts.mpr ⟨by omega, by omega⟩⟩
  · intro img thresh x y h
    have hc : ¬ (0 ≤ x ∧ x < (img.width : Int) ∧ 0 ≤ y ∧ y < (img.height : Int)) := by omega
    unfold isEmptyPixel pixelAlpha
    rw [if_neg hc]
    exact decide_eq_true (Nat.zero_le thresh)
  · rintro img thresh ⟨x, y, hocc⟩
    obtain ⟨hx0, hxw, hy0, hyh⟩ := occupied_in_bounds hocc
    have hoccb : (! isEmptyPixel img thresh x y) = true := by simp [hocc]
    refine ⟨?_, ?_, ?_, ?_⟩
    · apply find_getD_prop _ _ (fun v => 0 ≤ v ∧ v < (img.width : Int))
      · refine ⟨x, mem_ascInts.mpr ⟨hx0, by omega⟩, ?_⟩
        apply List.any_eq_true.mpr
        exact ⟨y, mem_ascInts.mpr ⟨hy0, by omega⟩, hoccb⟩
      · intro v hv
        obtain ⟨y0, _, hp⟩ := List.any_eq_true.mp hv
        have : isEmptyPixel img thresh v y0 = false := by
          simpa using hp
        obtain ⟨h1, h2, _, _⟩ := occupied_in_bounds this
        exact ⟨h1, h2⟩
    · apply find_getD_prop _ _ (fun v => 0 ≤ v ∧ v < (img.height : Int))
      · refine ⟨y, mem_ascInts.mpr ⟨hy0, by omega⟩, ?_⟩
        apply List.any_eq_true.mpr
        exact ⟨x, mem_ascInts.mpr ⟨hx0, by omega⟩, hoccb⟩
      · intro v hv
        obtain ⟨x0, _, hp⟩ := List.any_eq_true.mp hv
        have : isEmptyPixel img thresh x0 v = false := by
          simpa using hp
        obtain ⟨_, _, h1, h2⟩ := occupied_in_bounds this
        exact ⟨h1, h2⟩
    · apply find_getD_prop _ _ (fun v => 0 ≤ v ∧ v < (img.width : Int))
      · refine ⟨x, List.mem_reverse.mpr (mem_ascInts.mpr ⟨hx0, by omega⟩), ?_⟩
        apply List.any_eq_true.mpr
        exact ⟨y, List.mem_reverse.mpr (mem_ascInts.mpr ⟨hy0, by omega⟩), hoccb⟩
      · intro v hv
        obtain ⟨y0, _, hp⟩ := List.any_eq_true.mp hv
        have : isEmptyPixel img thresh v y0 = false := by
          simpa using hp
        obtain ⟨h1, h2, _, _⟩ := occupied_in_bounds this
        exact ⟨h1, h2⟩
    · apply find_getD_prop _ _ (fun v => 0 ≤ v ∧ v < (img.height : Int))
      · refine ⟨y, List.mem_reverse.mpr (mem_ascInts.mpr ⟨hy0, by omega⟩), ?_⟩
        apply List.any_eq_true.mpr
        exact ⟨x, List.mem_reverse.mpr (mem_ascInts.mpr ⟨hx0, by omega⟩), hoccb⟩
      · intro v hv
        obtain ⟨x0, _, hp⟩ := List.any_eq_true.mp hv
        have : isEmptyPixel img thresh x0 v = false := by
          simpa using hp
        obtain ⟨_, _, h1, h2⟩ := occupied_in_bounds this
        exact ⟨h1, h2⟩

/-- **C9 witness.** The hypotheses of `c9_scan_bounds` hold at a concrete
3×2 raster with one occupied pixel at `(1, 0)` and threshold 10: the
out-of-range lookup at `x = 3` (one past the last column) classifies as
empty, and the four pre-margin extrema lie within bounds. -/
theorem c9_scan_bounds_witness :
    isEmptyPixel ⟨3, 2, fun x y => if x = 1 ∧ y = 0 then 200 else 0⟩ 10 1 0 = false
      ∧ isEmptyPixel ⟨3, 2, fun x y => if x = 1 ∧ y = 0 then 200 else 0⟩ 10 3 0 = true
      ∧ ((0 ≤ calcMinX ⟨3, 2, fun x y => if x = 1 ∧ y = 0 then 200 else 0⟩ 10
            ∧ calcMinX ⟨3, 2, fun x y => if x = 1 ∧ y = 0 then 200 else 0⟩ 10
              < ((3 : Nat) : Int))
          ∧ (0 ≤ calcMinY ⟨3, 2, fun x y => if x = 1 ∧ y = 0 then 200 else 0⟩ 10
            ∧ calcMinY ⟨3, 2, fun x y => if x = 1 ∧ y = 0 then 200 else 0⟩ 10
              < ((2 : Nat) : Int))
          ∧ (0 ≤ calcMaxX ⟨3, 2, fun x y => if x = 1 ∧ y = 0 then 200 else 0⟩ 10
            ∧ calcMaxX ⟨3, 2, fun x y => if x = 1 ∧ y = 0 then 200 else 0⟩ 10
              < ((3 : Nat) : Int))
          ∧ (0 ≤ calcMaxY ⟨3, 2, fun x y => if x = 1 ∧ y = 0 then 200 else 0⟩ 10
            ∧ calcMaxY ⟨3, 2, fun x y => if x = 1 ∧ y = 0 then 200 else 0⟩ 10
              < ((2 : Nat) : Int))) :=
  ⟨by decide,
   c9_scan_bounds.2.1 ⟨3, 2, fun x y => if x = 1 ∧ y = 0 then 200 else 0⟩ 10 3 0
     (Or.inl (by decide)),
   c9_scan_bounds.2.2 ⟨3, 2, fun x y => if x = 1 ∧ y = 0 then 200 else 0⟩ 10
     ⟨1, 0, by decide⟩⟩

/-! ## Colors and the text-layer render pass sequence (`render`) -/

/-- `color.NRGBA`: 8-bit channel values. -/
structure NRGBA where
  r : Nat
  g : Nat
  b : Nat
  a : Nat
  deriving DecidableEq

/-- Value of one hexadecimal digit character, as `encoding/hex` accepts. -/
def hexDigitVal? (c : Char) : Option Nat :=
  if '0' ≤ c ∧ c ≤ '9' then some (c.toNat - 48)
  else if 'a' ≤ c ∧ c ≤ 'f' then some (c.toNat - 87)
  else if 'A' ≤ c ∧ c ≤ 'F' then some (c.toNat - 55)
  else none

/-- `hex.DecodeString`: decodes pairs of hex digits into bytes; fails on an
odd-length input or any non-hex character. -/
def hexDecode : List Char → Option (List Nat)
  | [] => some []
  | [_] => none
  | hi :: lo :: rest =>
    match hexDigitVal? hi, hexDigitVal? lo, hexDecode rest with
    | some h, some l, some bs => some ((16 * h + l) :: bs)
    | _, _, _ => none

/-- `ParseHexColor` (part_001 lines 137-152; `imgutils.ParseHexColor` used
by the current revision is this function extracted to a library): the
alpha channel is set to `0xff`, a 6-character check and a hex decode
follow, and the three decoded bytes become R, G, B.  `none` models the
error return. -/
def ParseHexColor (s : List Char) : Option NRGBA :=
  if s.length ≠ 6 then none
  else
    match hexDecode s with
    | some [rv, gv, bv] => some ⟨rv, gv, bv, 255⟩
    | _ => none

theorem ParseHexColor_alpha {s : List Char} {c : NRGBA}
    (h : ParseHexColor s = some c) : c.a = 255 := by
  unfold ParseHexColor at h
  split at h
  · exact absurd h (by simp)
  · split at h
    · injection h with h'
      subst h'
      rfl
    · exact absurd h (by simp)

/-- One operation on the text-layer canvas. -/
inductive TextOp where
  | drawString (text : List Char) (dot : Int × Int)
  | addBorders (colr : NRGBA) (width : Int) (alphaThresh : Nat)
  deriving DecidableEq

/-- The persistent configuration fields the render stage reads
(png.go `Config`). -/
structure Config where
  fontBorderAlphaThresh : Nat
  fontBorderColor : NRGBA
  fontBorderWidth : Int
  numPosX : Int
  numPosY : Int
  textImgWidth : Int
  textImgHeight : Int
  deriving DecidableEq

/-- The glyph-draw anchor (png.go lines 576-580):
`X = 0 + 2 + fontBorderWidth`,
`Y = y + (2 + fontBorderWidth) * 2`, where
`y = ceil(fontSize * fontDPI / 72)` is passed in as the already-computed
integer (the float computation itself is outside this embedding). -/
def startDot (c : Config) (y : Int) : Int × Int :=
  (0 + 2 + c.fontBorderWidth, y + (2 + c.fontBorderWidth) * 2)

/-- The text-layer operation sequence of `(*thumbnail).render`
(png.go lines 592-601): draw the `"#"`-prefixed label at the anchor, the
main border pass with the configured color/width/threshold, redraw the
label at the same anchor, a `width=1` pass with the border color at alpha
150 and the configured threshold, and a `width=1` pass at alpha 65 with
the fixed threshold 149. -/
def renderTextOps (c : Config) (y : Int) (label : List Char) : List TextOp :=
  let borderColorSoft : NRGBA := { c.fontBorderColor with a := 150 }
  let borderColorSofter : NRGBA := { c.fontBorderColor with a := 65 }
  let text : List Char := '#' :: label
  [TextOp.drawString text (startDot c y),
   TextOp.addBorders c.fontBorderColor c.fontBorderWidth c.fontBorderAlphaThresh,
   TextOp.drawString text (startDot c y),
   TextOp.addBorders borderColorSoft 1 c.fontBorderAlphaThresh,
   TextOp.addBorders borderColorSofter 1 149]

/-- The configuration of the repository's own benchmark
(`png_test.go`): border alpha threshold 250, white border color, border
width 3. -/
def configThresh250 : Config := ⟨250, ⟨255, 255, 255, 255⟩, 3, 986, 625, 1920, 1080⟩

/-- **C3 counterexample.** At the benchmark configuration (threshold 250)
the final halo pass still uses the fixed threshold 149, which is not
strictly higher than the configured one, contradicting the claim as
stated for every configuration. -/
theorem c3_counterexample :
    (renderTextOps configThresh250 125 ['0', '1'])[4]?
        = some (TextOp.addBorders ⟨255, 255, 255, 65⟩ 1 149)
      ∧ ¬ 149 > configThresh250.fontBorderAlphaThresh := by
  refine ⟨by decide, by decide⟩

/-- **C3 (amended).** For every label and configuration whose border color
came from `ParseHexColor`, the text-layer rendering performs exactly:
draw the `'#'`-prefixed label at the anchor; the main border pass with the
configured border color, width and threshold; redraw the label at the same
anchor; a `width=1` pass with the border color at reduced alpha 150 (below
the parsed color's alpha 255) and the same threshold; and a `width=1` pass
at the even lower alpha 65 using the fixed threshold 149 — which is
strictly higher (stricter) than the configured threshold only when the
configured threshold is below 149. -/
theorem c3_render_pass_sequence (c : Config) (y : Int) (label : List Char)
    (s : List Char) (hcol : ParseHexColor s = some c.fontBorderColor) :
    renderTextOps c y label
      = [TextOp.drawString ('#' :: label) (startDot c y),
         TextOp.addBorders c.fontBorderColor c.fontBorderWidth c.fontBorderAlphaThresh,
         TextOp.drawString ('#' :: label) (startDot c y),
         TextOp.addBorders { c.fontBorderColor with a := 150 } 1 c.fontBorderAlphaThresh,
         TextOp.addBorders { c.fontBorderColor with a := 65 } 1 149]
      ∧ 65 < 150 ∧ 150 < c.fontBorderColor.a :=
  ⟨rfl, by norm_num, by rw [ParseHexColor_alpha hcol]; norm_num⟩

/-- **C3 witness.** The hypothesis of `c3_render_pass_sequence` holds at
the concrete configuration `configThresh250`, whose white border color is
`ParseHexColor "FFFFFF"`. -/
theorem c3_render_pass_sequence_witness :
    ParseHexColor ['F', 'F', 'F', 'F', 'F', 'F'] = some configThresh250.fontBorderColor
      ∧ 150 < configThresh250.fontBorderColor.a :=
  ⟨by decide,
   (c3_render_pass_sequence configThresh250 125 ['7'] ['F', 'F', 'F', 'F', 'F', 'F']
     (by decide)).2.2⟩

/-! ## Placement of the cropped text layer -/

/-- The placement offset of the current `render` (png.go lines 616-628):
the manual-placement line and the auto-lower-right variant are commented
out in the source; the live code always computes the auto-upper-right
anchor `(imgWidth - textRectWidth - 25, textRectHeight - 80)` from the
canvas and text-rectangle dimensions.  The configuration (including
`numPosX`/`numPosY`) is not consulted. -/
def renderPlacementOffset (c : Config) (imgW textW textH : Int) : Int × Int :=
  (imgW - textW - 25, textH - 80)

/-- The placement offset of the earlier revision's `render` (part_001
line 401): always the fixed manual offset `(numPosX, numPosY)` from the
configuration. -/
def renderPlacementOffsetOld (c : Config) : Int × Int := (c.numPosX, c.numPosY)

/-- **C8 counterexample.** In the current compositor the placement offset
ignores the configured fixed X/Y entirely: at canvas width 1280 and a
100×100 text rectangle the offset is `(1155, 20)` for a configuration
whose manual position is `(975, 600)` and is unchanged for a configuration
whose manual position is `(100, 50)` — no configuration value selects the
manual placement policy. -/
theorem c8_counterexample :
    renderPlacementOffset ⟨0, ⟨255, 255, 255, 255⟩, 2, 975, 600, 1920, 1080⟩ 1280 100 100
        = (1155, 20)
      ∧ renderPlacementOffset ⟨0, ⟨255, 255, 255, 255⟩, 2, 975, 600, 1920, 1080⟩ 1280 100 100
        ≠ (975, 600)
      ∧ renderPlacementOffset ⟨0, ⟨255, 255, 255, 255⟩, 2, 100, 50, 1920, 1080⟩ 1280 100 100
        = renderPlacementOffset ⟨0, ⟨255, 255, 255, 255⟩, 2, 975, 600, 1920, 1080⟩
            1280 100 100
      ∧ renderPlacementOffset ⟨0, ⟨255, 255, 255, 255⟩, 2, 100, 50, 1920, 1080⟩ 1280 100 100
        ≠ (100, 50) := by
  refine ⟨by decide, by decide, by decide, by decide⟩

/-- **C8 (amended).** Manual placement and automatic corner anchoring each
appear in the repository, but each revision hard-codes exactly one policy:
the current `render` always uses the automatic upper-right-corner offset
`(canvasWidth − textWidth − 25, textHeight − 80)` (independent of the
configuration), while the earlier revision's `render` always blends at the
fixed `(numPosX, numPosY)` taken from the configuration as-is; no
configuration value or mode selects between the two policies. -/
theorem c8_placement_policies (c cAlt : Config) (imgW textW textH : Int) :
    renderPlacementOffset c imgW textW textH = (imgW - textW - 25, textH - 80)
      ∧ renderPlacementOffset c imgW textW textH
        = renderPlacementOffset cAlt imgW textW textH
      ∧ renderPlacementOffsetOld c = (c.numPosX, c.numPosY) :=
  ⟨rfl, rfl, rfl⟩

/-! ## Error behavior of `render` -/

/-- `(*thumbnail).render` of the current revision (png.go lines 550-629),
reduced to its observable text-layer trace and error result: every
drawing, border and composition step is a void call; the only statement
that can return a non-nil error is `savePNG` of the debug text layer,
guarded by the `debug` flag.  `savePNGErr` is the error (if any) that the
debug save would produce. -/
def renderNew {ε : Type} (c : Config) (y : Int) (label : List Char) (debug : Bool)
    (savePNGErr : Option ε) : List TextOp × Option ε :=
  (renderTextOps c y label,
   if debug then
     match savePNGErr with
     | some e => some e
     | none => none
   else none)

/-- Error result of the earlier revision's `render` (part_001 lines
351-413): each of the two `ftCtx.DrawString` calls discards its error by
returning nil; the only propagated error is `os.Create` of the debug text
layer inside the debug-level block (the `png.Encode` error there is
ignored). -/
def renderOldErr {ε : Type} (debugLevel : Bool)
    (drawString1Err drawString2Err createDebugFileErr : Option ε) : Option ε :=
  match drawString1Err with
  | some _ => none
  | none =>
    match drawString2Err with
    | some _ => none
    | none =>
      if debugLevel then
        match createDebugFileErr with
        | some e => some e
        | none => none
      else none

/-- **C10.** Whenever the debug flag is disabled, `render` returns a nil
error for every input — in the current revision the only fallible
statement sits inside the debug branch, and in the earlier revision a
glyph-draw error is additionally discarded by returning nil even when
debug logging is on; consequently a render failure can never abort a
non-debug run. -/
theorem c10_render_nil_error :
    (∀ (ε : Type) (c : Config) (y : Int) (label : List Char) (savePNGErr : Option ε),
        (renderNew c y label false savePNGErr).2 = none)
  ∧ (∀ (ε : Type) (d1 d2 cr : Option ε), renderOldErr false d1 d2 cr = none)
  ∧ (∀ (ε : Type) (debugLevel : Bool) (e : ε) (d2 cr : Option ε),
        renderOldErr debugLevel (some e) d2 cr = none) := by
  refine ⟨?_, ?_, ?_⟩
  · intro ε c y label savePNGErr
    rfl
  · intro ε d1 d2 cr
    cases d1 <;> cases d2 <;> rfl
  · intro ε debugLevel e d2 cr
    rfl

/-! ## Final-resolution scaling (`export`) -/

/-- `imageFinalWidth` (png.go line 51). -/
abbrev imageFinalWidth : Int := 1280

/-- `imageFinalHeight` (png.go line 50). -/
abbrev imageFinalHeight : Int := 720

/-- Pixel dimensions of the raster written by `(*thumbnail).export`
(png.go lines 632-653): when the image bounds exceed the target in either
axis, the canvas is replaced by a Catmull-Rom scale onto
`image.Rect(0, 0, imageFinalWidth, imageFinalHeight)` — exactly the target
dimensions, regardless of aspect ratio — and is otherwise written
unchanged.  Rasters reaching `export` have bounds at the origin (they come
from `image.NewNRGBA` over decoded-image bounds), so the source's
`Rect.Max.X > imageFinalWidth || Rect.Max.Y > imageFinalHeight` comparison
is the comparison of width and height used here. -/
def exportDims (w h : Int) : Int × Int :=
  if w > imageFinalWidth ∨ h > imageFinalHeight then (imageFinalWidth, imageFinalHeight)
  else (w, h)

/-- **C5.** If the canvas width exceeds the target output width or the
canvas height exceeds the target output height, the exported raster's
dimensions equal exactly the configured target (1280×720), regardless of
input aspect ratio; otherwise the raster is exported with its dimensions
unchanged. -/
theorem c5_export_scaling (w h : Int) :
    (w > imageFinalWidth ∨ h > imageFinalHeight →
        exportDims w h = (imageFinalWidth, imageFinalHeight))
      ∧ (w ≤ imageFinalWidth → h ≤ imageFinalHeight → exportDims w h = (w, h)) := by
  constructor
  · intro hgt
    unfold exportDims
    rw [if_pos hgt]
  · intro h1 h2
    unfold exportDims
    rw [if_neg (by omega)]

/-- **C5 witness.** The hypotheses of `c5_export_scaling` hold at the
concrete oversized canvas 1920×1080 (scaled to exactly 1280×720) and at
the concrete fitting canvas 1000×700 (written unchanged). -/
theorem c5_export_scaling_witness :
    ((1920 : Int) > imageFinalWidth ∨ (1080 : Int) > imageFinalHeight)
      ∧ exportDims 1920 1080 = (imageFinalWidth, imageFinalHeight)
      ∧ ((1000 : Int) ≤ imageFinalWidth ∧ (700 : Int) ≤ imageFinalHeight)
      ∧ exportDims 1000 700 = (1000, 700) :=
  ⟨Or.inl (by decide),
   (c5_export_scaling 1920 1080).1 (Or.inl (by decide)),
   ⟨by decide, by decide⟩,
   (c5_export_scaling 1000 700).2 (by decide) (by decide)⟩

end Thumbnailer
